import Mathlib

/-!
Verification of the claim-execute-settle job-queue engine.

The embedding models the `jobs` rows of `storage.py` as a Lean structure,
the Claimer SELECT/UPDATE of `worker.py` (`_claim_one_ready_job`) as a
selection function over a list of rows, the Settler
(`_process_job` / `_handle_failure`) as pure row transformers, and the
administrative operations `rescue_leases` and `dlq_retry` of `cli.py` as
functions on rows.  Timestamps (ISO-8601 UTC strings, lexicographically
comparable) are modelled as integers; `duration_seconds` (REAL) is an
abstract integer passed through, since no claim computes with it.
-/

/-- Job states, from models.py / the `state` column of storage.py. -/
inductive JState where
  | pending
  | processing
  | failed
  | completed
  | dead
deriving DecidableEq

/-- A row of the `jobs` table (storage.py, `_init_schema`). -/
structure Job where
  id : String
  command : String
  state : JState
  attempts : Nat
  max_retries : Nat
  exit_code : Option Int
  error : Option String
  worker_id : Option String
  lease_until : Option Int
  next_run_at : Option Int
  timeout_seconds : Option Nat
  priority : Int
  run_at : Option Int
  started_at : Option Int
  finished_at : Option Int
  output : Option String
  duration_seconds : Option Int
  created_at : Int
  updated_at : Int
deriving DecidableEq

/-- Row inserted by `enqueue` in cli.py: state `pending`, attempts 0, all
columns absent from the INSERT left NULL. -/
def enqueue (id command : String) (max_retries : Nat)
    (timeout_seconds : Option Nat) (priority : Int)
    (run_at : Option Int) (now : Int) : Job :=
  { id := id
    command := command
    state := JState.pending
    attempts := 0
    max_retries := max_retries
    exit_code := none
    error := none
    worker_id := none
    lease_until := none
    next_run_at := none
    timeout_seconds := timeout_seconds
    priority := priority
    run_at := run_at
    started_at := none
    finished_at := none
    output := none
    duration_seconds := none
    created_at := now
    updated_at := now }

/-- First disjunct of the Claimer WHERE clause (worker.py line 49-51):
state is `pending`, or `failed` with a non-NULL `next_run_at` that is due. -/
def stateReady (j : Job) (now : Int) : Bool :=
  decide (j.state = JState.pending) ||
    (decide (j.state = JState.failed) &&
      (match j.next_run_at with
       | none => false
       | some t => decide (t ≤ now)))

/-- Schedule gate of the Claimer WHERE clause: `run_at IS NULL OR run_at <= now`. -/
def runAtOk (j : Job) (now : Int) : Bool :=
  match j.run_at with
  | none => true
  | some r => decide (r ≤ now)

/-- Lease gate of the Claimer WHERE clause and of the UPDATE guard:
`lease_until IS NULL OR lease_until <= now`. -/
def leaseFree (j : Job) (now : Int) : Bool :=
  match j.lease_until with
  | none => true
  | some l => decide (l ≤ now)

/-- Full readiness predicate of `_claim_one_ready_job` (worker.py lines 46-53). -/
def jobReady (j : Job) (now : Int) : Bool :=
  stateReady j now && runAtOk j now && leaseFree j now

/-- Selection of the top row under `ORDER BY priority DESC, created_at ASC
LIMIT 1`: fold keeping the best row, where a later row displaces the current
best only when it has strictly higher priority, or equal priority and
strictly older `created_at`. -/
def selectJob : List Job → Option Job
  | [] => none
  | j :: rest =>
      match selectJob rest with
      | none => some j
      | some k =>
          if j.priority < k.priority ∨
              (k.priority = j.priority ∧ k.created_at < j.created_at)
          then some k
          else some j

/-- The Claimer SELECT (worker.py lines 46-56): filter the ready rows at
`now` and take the top row of the ordering. -/
def claimSelect (jobs : List Job) (now : Int) : Option Job :=
  selectJob (jobs.filter (fun j => jobReady j now))

/-- The Claimer UPDATE (worker.py lines 66-70): set `processing`, record the
lease holder and expiry, `started_at = COALESCE(started_at, now)`,
`updated_at = now`. -/
def claimUpdate (j : Job) (w : String) (leaseSeconds now : Int) : Job :=
  { j with
    state := JState.processing
    worker_id := some w
    lease_until := some (now + leaseSeconds)
    started_at := some (j.started_at.getD now)
    updated_at := now }

/-- Executor outcome: the child exited with a return code and captured
streams, or the wall-clock timeout expired (worker.py lines 86-112). -/
inductive ExecResult where
  | exited (returncode : Int) (stdout stderr : String)
  | timedOut
deriving DecidableEq

/-- Failure settlement `_handle_failure` (worker.py lines 114-134).  The new
attempt count is `attempts + 1`; at or above `max_retries` the row becomes
terminal `dead` with `finished_at` set, otherwise `failed` with
`next_run_at = now + backoff_base ^ attempts` and `finished_at` untouched. -/
def handle_failure (j : Job) (exit_code : Int) (error : Option String)
    (now dur backoffBase : Int) : Job :=
  if j.attempts + 1 ≥ j.max_retries then
    { j with
      state := JState.dead
      attempts := j.attempts + 1
      exit_code := some exit_code
      error := error
      lease_until := none
      finished_at := some now
      updated_at := now
      duration_seconds := some dur }
  else
    { j with
      state := JState.failed
      attempts := j.attempts + 1
      exit_code := some exit_code
      error := error
      next_run_at := some (now + backoffBase ^ (j.attempts + 1))
      lease_until := none
      updated_at := now
      duration_seconds := some dur }

/-- Success settlement, the `exit_code == 0` branch of `_process_job`
(worker.py lines 98-105). -/
def completeUpdate (j : Job) (exit_code : Int) (output : String)
    (now dur : Int) : Job :=
  { j with
    state := JState.completed
    exit_code := some exit_code
    error := none
    output := some output
    lease_until := none
    finished_at := some now
    updated_at := now
    duration_seconds := some dur }

/-- Settlement dispatch of `_process_job` (worker.py lines 82-112): exit
code 0 completes with `output = stdout ++ stderr`; a nonzero exit fails with
`error = stderr`; a timeout fails with `exit_code = -1`, `error = "timeout"`. -/
def process_job (j : Job) (res : ExecResult) (now dur backoffBase : Int) : Job :=
  match res with
  | ExecResult.exited rc out err =>
      if rc = 0 then completeUpdate j rc (out ++ err) now dur
      else handle_failure j rc (some err) now dur backoffBase
  | ExecResult.timedOut =>
      handle_failure j (-1) (some "timeout") now dur backoffBase

/-- `dlq_retry` (cli.py lines 197-209): the UPDATE is guarded by
`state='dead'`; on a dead row it resets to pending with attempts 0 and
clears error, next_run_at, worker_id and lease_until. -/
def dlq_retry (j : Job) (now : Int) : Job :=
  if j.state = JState.dead then
    { j with
      state := JState.pending
      attempts := 0
      updated_at := now
      error := none
      next_run_at := none
      worker_id := none
      lease_until := none }
  else j

/-- Row filter of `rescue_leases` (cli.py lines 279-282):
`state='processing' AND lease_until IS NOT NULL AND lease_until <= cutoff`. -/
def rescueCond (j : Job) (cutoff : Int) : Bool :=
  decide (j.state = JState.processing) &&
    (match j.lease_until with
     | none => false
     | some l => decide (l ≤ cutoff))

/-- Row update of `rescue_leases` (cli.py lines 291-295): back to pending,
worker and lease cleared, `updated_at = now`; `attempts` untouched. -/
def rescueReset (j : Job) (now : Int) : Job :=
  { j with
    state := JState.pending
    worker_id := none
    lease_until := none
    updated_at := now }

/-- `rescue_leases` (cli.py lines 270-297): with `cutoff = now -
older_than_seconds`, collect the ids of rows passing the filter, reset
exactly those rows, and return the ids alongside the updated table. -/
def rescue_leases (jobs : List Job) (olderThanSeconds now : Int) :
    List String × List Job :=
  ((jobs.filter (fun j => rescueCond j (now - olderThanSeconds))).map
     (fun j => j.id),
   jobs.map (fun j =>
     if rescueCond j (now - olderThanSeconds) then rescueReset j now else j))

/-- One transition of a single job row through the engine: a claim of a
ready row, a settlement of a processing row, a rescue of an
expired-processing row, or an administrative DLQ retry. -/
inductive Step : Job → Job → Prop where
  | claim (j : Job) (w : String) (ls now : Int) :
      jobReady j now = true → Step j (claimUpdate j w ls now)
  | settle (j : Job) (res : ExecResult) (now dur base : Int) :
      j.state = JState.processing → Step j (process_job j res now dur base)
  | rescue (j : Job) (cutoff now : Int) :
      rescueCond j cutoff = true → Step j (rescueReset j now)
  | dlq (j : Job) (now : Int) : Step j (dlq_retry j now)

/-- Committed states of a row reachable through engine transitions. -/
def Reachable : Job → Job → Prop :=
  Relation.ReflTransGen Step

/-! Sample rows used by witnesses. -/

/-- A freshly enqueued row with `max_retries = 1`. -/
def sampleJobA : Job := enqueue "a" "false" 1 none 0 none 0

/-- A freshly enqueued row with `max_retries = 3`. -/
def sampleJobB : Job := enqueue "b" "false" 3 none 0 none 0

/-- A dead row, as left by a terminal failure settlement. -/
def sampleDead : Job :=
  { enqueue "d" "false" 1 none 0 none 0 with
    state := JState.dead
    attempts := 1
    exit_code := some 1
    error := some "boom"
    finished_at := some 5 }

/-- C2: on a failed attempt the Settler writes `attempts + 1`; at or above
`max_retries` it sets state `dead`, clears the lease and sets
`finished_at = now`; otherwise it sets state `failed`, clears the lease,
sets `next_run_at = now + backoff_base ^ (attempts + 1)` exactly, and
leaves `finished_at` untouched. -/
theorem C2_settler_failure (j : Job) (ec : Int) (err : Option String)
    (now dur base : Int) :
    (handle_failure j ec err now dur base).attempts = j.attempts + 1 ∧
    (j.attempts + 1 ≥ j.max_retries →
      (handle_failure j ec err now dur base).state = JState.dead ∧
      (handle_failure j ec err now dur base).lease_until = none ∧
      (handle_failure j ec err now dur base).finished_at = some now) ∧
    (j.attempts + 1 < j.max_retries →
      (handle_failure j ec err now dur base).state = JState.failed ∧
      (handle_failure j ec err now dur base).lease_until = none ∧
      (handle_failure j ec err now dur base).next_run_at =
        some (now + base ^ (j.attempts + 1)) ∧
      (handle_failure j ec err now dur base).finished_at = j.finished_at) := by
  refine ⟨?_, ?_, ?_⟩
  · unfold handle_failure
    split <;> rfl
  · intro h
    unfold handle_failure
    rw [if_pos h]
    exact ⟨rfl, rfl, rfl⟩
  · intro h
    unfold handle_failure
    rw [if_neg (by omega)]
    exact ⟨rfl, rfl, rfl, rfl⟩

/-- Witness for C2: a terminal failure on a `max_retries = 1` row and a
retryable failure on a `max_retries = 3` row. -/
theorem C2_settler_failure_witness :
    ((handle_failure sampleJobA 1 (some "e") 10 1 2).state = JState.dead ∧
     (handle_failure sampleJobA 1 (some "e") 10 1 2).lease_until = none ∧
     (handle_failure sampleJobA 1 (some "e") 10 1 2).finished_at = some 10) ∧
    ((handle_failure sampleJobB 1 (some "e") 10 1 2).state = JState.failed ∧
     (handle_failure sampleJobB 1 (some "e") 10 1 2).lease_until = none ∧
     (handle_failure sampleJobB 1 (some "e") 10 1 2).next_run_at =
       some (10 + 2 ^ (sampleJobB.attempts + 1)) ∧
     (handle_failure sampleJobB 1 (some "e") 10 1 2).finished_at =
       sampleJobB.finished_at) :=
  ⟨(C2_settler_failure sampleJobA 1 (some "e") 10 1 2).2.1 (by decide),
   (C2_settler_failure sampleJobB 1 (some "e") 10 1 2).2.2 (by decide)⟩

/-- C3: on exit code 0 the Settler sets state `completed`, the exit code,
`error = null`, `output` to the captured stdout ++ stderr, clears the lease,
sets `finished_at`, `updated_at` and `duration_seconds`, and leaves
`attempts` unincremented (visible in the frame of the record update). -/
theorem C3_settler_success (j : Job) (out errS : String) (now dur base : Int) :
    process_job j (ExecResult.exited 0 out errS) now dur base =
      { j with
        state := JState.completed
        exit_code := some 0
        error := none
        output := some (out ++ errS)
        lease_until := none
        finished_at := some now
        updated_at := now
        duration_seconds := some dur } ∧
    (process_job j (ExecResult.exited 0 out errS) now dur base).attempts =
      j.attempts := by
  exact ⟨rfl, rfl⟩

/-- C6: a timed-out attempt is settled through the failure path with
`exit_code = -1` and `error = "timeout"`, ending in state `failed` or
`dead`. -/
theorem C6_timeout_failure_path (j : Job) (now dur base : Int) :
    process_job j ExecResult.timedOut now dur base =
      handle_failure j (-1) (some "timeout") now dur base ∧
    (process_job j ExecResult.timedOut now dur base).exit_code = some (-1) ∧
    (process_job j ExecResult.timedOut now dur base).error = some "timeout" ∧
    ((process_job j ExecResult.timedOut now dur base).state = JState.failed ∨
     (process_job j ExecResult.timedOut now dur base).state = JState.dead) := by
  have h : process_job j ExecResult.timedOut now dur base =
      handle_failure j (-1) (some "timeout") now dur base := rfl
  refine ⟨h, ?_, ?_, ?_⟩ <;>
    · rw [h]
      unfold handle_failure
      split <;> simp

/-- C9: `dlq_retry` on a dead row resets it to pending with `attempts = 0`,
clears `error`, `next_run_at`, `worker_id` and `lease_until` and stamps
`updated_at`; on any other row it changes nothing. -/
theorem C9_dlq_retry (j : Job) (now : Int) :
    (j.state = JState.dead →
      dlq_retry j now =
        { j with
          state := JState.pending
          attempts := 0
          updated_at := now
          error := none
          next_run_at := none
          worker_id := none
          lease_until := none }) ∧
    (j.state ≠ JState.dead → dlq_retry j now = j) := by
  constructor
  · intro h
    unfold dlq_retry
    rw [if_pos h]
  · intro h
    unfold dlq_retry
    rw [if_neg h]

/-- Witness for C9: a dead row is reset, a pending row is untouched. -/
theorem C9_dlq_retry_witness :
    dlq_retry sampleDead 9 =
      { sampleDead with
        state := JState.pending
        attempts := 0
        updated_at := 9
        error := none
        next_run_at := none
        worker_id := none
        lease_until := none } ∧
    dlq_retry sampleJobB 9 = sampleJobB :=
  ⟨(C9_dlq_retry sampleDead 9).1 rfl,
   (C9_dlq_retry sampleJobB 9).2 (by decide)⟩

/-! Facts about the Claimer selection. -/

/-- An empty selection means an empty candidate list. -/
theorem selectJob_eq_none : ∀ {l : List Job}, selectJob l = none → l = [] := by
  intro l h
  cases l with
  | nil => rfl
  | cons a rest =>
      exfalso
      simp only [selectJob] at h
      split at h
      · exact Option.noConfusion h
      · split at h <;> exact Option.noConfusion h

/-- The selected row is one of the candidates. -/
theorem selectJob_mem : ∀ {l : List Job} {j : Job}, selectJob l = some j → j ∈ l := by
  intro l
  induction l with
  | nil => intro j h; exact absurd h (by simp [selectJob])
  | cons a rest ih =>
      intro j h
      simp only [selectJob] at h
      split at h
      · rw [Option.some.injEq] at h
        exact h ▸ List.mem_cons_self a rest
      · rename_i k heq
        split at h <;> rw [Option.some.injEq] at h
        · exact List.mem_cons_of_mem a (h ▸ ih heq)
        · exact h ▸ List.mem_cons_self a rest

/-- A non-empty candidate list yields a selection. -/
theorem selectJob_isSome {l : List Job} (h : l ≠ []) : ∃ j, selectJob l = some j := by
  cases hs : selectJob l with
  | none => exact absurd (selectJob_eq_none hs) h
  | some j => exact ⟨j, rfl⟩

/-- The selected row is maximal for `ORDER BY priority DESC, created_at ASC`:
no candidate has higher priority, and no equal-priority candidate is older. -/
theorem selectJob_best : ∀ {l : List Job} {j : Job}, selectJob l = some j →
    ∀ i ∈ l, i.priority ≤ j.priority ∧
      (i.priority = j.priority → j.created_at ≤ i.created_at) := by
  intro l
  induction l with
  | nil => intro j h; exact absurd h (by simp [selectJob])
  | cons a rest ih =>
      intro j h i hi
      simp only [selectJob] at h
      split at h
      · rename_i heq
        rw [Option.some.injEq] at h
        subst h
        rw [selectJob_eq_none heq] at hi
        rcases List.mem_cons.mp hi with hia | hin
        · subst hia
          exact ⟨le_refl _, fun _ => le_refl _⟩
        · exact absurd hin (List.not_mem_nil i)
      · rename_i k heq
        rcases List.mem_cons.mp hi with hia | hin
        · subst hia
          split at h <;> rw [Option.some.injEq] at h <;> subst h
          · rename_i hc
            exact ⟨by omega, fun hpe => by omega⟩
          · exact ⟨le_refl _, fun _ => le_refl _⟩
        · have hik := ih heq i hin
          split at h <;> rw [Option.some.injEq] at h <;> subst h
          · exact hik
          · rename_i hc
            obtain ⟨h1, h2⟩ := hik
            exact ⟨by omega, fun hpe => by omega⟩

/-- A row returned by the Claimer SELECT satisfies the readiness predicate. -/
theorem claimSelect_ready {jobs : List Job} {now : Int} {j : Job}
    (h : claimSelect jobs now = some j) : jobReady j now = true :=
  (List.mem_filter.mp (selectJob_mem h)).2

/-- A row returned by the Claimer SELECT is a row of the table. -/
theorem claimSelect_mem {jobs : List Job} {now : Int} {j : Job}
    (h : claimSelect jobs now = some j) : j ∈ jobs :=
  (List.mem_filter.mp (selectJob_mem h)).1

/-- A processing row never satisfies the Claimer readiness predicate:
the WHERE clause admits only `pending` and due `failed` rows. -/
theorem jobReady_processing {j : Job} (now : Int)
    (h : j.state = JState.processing) : jobReady j now = false := by
  unfold jobReady stateReady
  rw [h]
  rfl

/-- A processing row whose lease expired at time 0, as left behind by a
crashed worker. -/
def expiredProcessing : Job :=
  { enqueue "p" "sleep 99" 3 none 0 none 0 with
    state := JState.processing
    worker_id := some "w0"
    lease_until := some 0
    started_at := some 0 }

/-- Counterexample to C1: at `now = 10` the lease of `expiredProcessing`
has passed, yet the readiness predicate rejects the row and a Claimer
invocation over a table holding only this row returns nothing, so a
processing row with an expired lease is not re-claimable as C1 states. -/
theorem C1_counterexample :
    expiredProcessing.state = JState.processing ∧
    expiredProcessing.lease_until = some 0 ∧ ((0 : Int) ≤ 10) ∧
    jobReady expiredProcessing 10 = false ∧
    claimSelect [expiredProcessing] 10 = none :=
  ⟨rfl, rfl, by decide, rfl, rfl⟩

/-- C1 (amended): a row in state `processing` is never selected by the
Claimer, even when its lease has passed, because the WHERE clause admits
only `pending` and due `failed` rows; recovery of an expired-lease
processing row goes through rescue, and a claim leaves the `attempts`
field unchanged (it changes only at the next settlement). -/
theorem C1_processing_not_claimable (j : Job) (now : Int)
    (h : j.state = JState.processing) :
    jobReady j now = false ∧
    (∀ jobs : List Job, ∀ k : Job, claimSelect jobs now = some k →
      k.state ≠ JState.processing) ∧
    (∀ w : String, ∀ ls : Int, (claimUpdate j w ls now).attempts = j.attempts) := by
  refine ⟨jobReady_processing now h, ?_, fun w ls => rfl⟩
  intro jobs k hk hkp
  have hr := claimSelect_ready hk
  rw [jobReady_processing now hkp] at hr
  exact Bool.noConfusion hr

/-- Witness for C1 (amended), at the concrete expired-lease processing row. -/
theorem C1_processing_not_claimable_witness :
    jobReady expiredProcessing 10 = false ∧
    (∀ jobs : List Job, ∀ k : Job, claimSelect jobs 10 = some k →
      k.state ≠ JState.processing) ∧
    (∀ w : String, ∀ ls : Int,
      (claimUpdate expiredProcessing w ls 10).attempts =
        expiredProcessing.attempts) :=
  C1_processing_not_claimable expiredProcessing 10 rfl

/-- C4: whenever some ready row exists, the Claimer invocation returns a
ready row of the table of maximal priority among ready rows, and of oldest
`created_at` among the ready rows of that priority. -/
theorem C4_priority_fifo (jobs : List Job) (now : Int) (k : Job)
    (hk : k ∈ jobs) (hkr : jobReady k now = true) :
    ∃ j, claimSelect jobs now = some j ∧ j ∈ jobs ∧ jobReady j now = true ∧
      ∀ i ∈ jobs, jobReady i now = true →
        i.priority ≤ j.priority ∧
        (i.priority = j.priority → j.created_at ≤ i.created_at) := by
  have hne : jobs.filter (fun j => jobReady j now) ≠ [] := by
    intro hempty
    have hmem : k ∈ jobs.filter (fun j => jobReady j now) :=
      List.mem_filter.mpr ⟨hk, hkr⟩
    rw [hempty] at hmem
    exact List.not_mem_nil k hmem
  obtain ⟨j, hj⟩ := selectJob_isSome hne
  refine ⟨j, hj, claimSelect_mem hj, claimSelect_ready hj, ?_⟩
  intro i hi hir
  exact selectJob_best hj i (List.mem_filter.mpr ⟨hi, hir⟩)

/-- A low-priority ready row created at time 0. -/
def demoLow : Job := enqueue "lo" "true" 3 none 0 none 0

/-- A high-priority ready row created at time 1. -/
def demoHigh : Job := enqueue "hi" "true" 3 none 10 none 1

/-- Witness for C4 over a two-row table with distinct priorities. -/
theorem C4_priority_fifo_witness :
    ∃ j, claimSelect [demoLow, demoHigh] 5 = some j ∧
      j ∈ [demoLow, demoHigh] ∧ jobReady j 5 = true ∧
      ∀ i ∈ [demoLow, demoHigh], jobReady i 5 = true →
        i.priority ≤ j.priority ∧
        (i.priority = j.priority → j.created_at ≤ i.created_at) :=
  C4_priority_fifo [demoLow, demoHigh] 5 demoHigh (by decide) (by decide)

/-- C5: a row returned by the Claimer has no pending schedule
(`run_at`, when set, is at or before `now`) and, when it is in state
`failed`, a non-null `next_run_at` at or before `now`. -/
theorem C5_gating (jobs : List Job) (now : Int) (j : Job)
    (h : claimSelect jobs now = some j) :
    (∀ r, j.run_at = some r → r ≤ now) ∧
    (j.state = JState.failed → ∃ t, j.next_run_at = some t ∧ t ≤ now) := by
  have hready := claimSelect_ready h
  unfold jobReady at hready
  rw [Bool.and_eq_true, Bool.and_eq_true] at hready
  obtain ⟨⟨hs, hrun⟩, _⟩ := hready
  constructor
  · intro r hr
    unfold runAtOk at hrun
    rw [hr] at hrun
    exact of_decide_eq_true hrun
  · intro hf
    unfold stateReady at hs
    rw [hf] at hs
    rw [Bool.or_eq_true, Bool.and_eq_true] at hs
    rcases hs with hbad | ⟨_, hnr⟩
    · exact absurd (of_decide_eq_true hbad) (by decide)
    · cases hn : j.next_run_at with
      | none => rw [hn] at hnr; exact Bool.noConfusion hnr
      | some t =>
          rw [hn] at hnr
          exact ⟨t, rfl, of_decide_eq_true hnr⟩

/-- A due failed row: `next_run_at = 3`, claimable at `now = 5`. -/
def demoFailed : Job :=
  { enqueue "f" "false" 3 none 0 none 0 with
    state := JState.failed
    attempts := 1
    next_run_at := some 3
    exit_code := some 1
    error := some "e" }

/-- Witness for C5: the gating facts at a concrete claimed failed row. -/
theorem C5_gating_witness :
    (∀ r, demoFailed.run_at = some r → r ≤ 5) ∧
    (demoFailed.state = JState.failed →
      ∃ t, demoFailed.next_run_at = some t ∧ t ≤ 5) :=
  C5_gating [demoFailed] 5 demoFailed (by decide)

/-- The code's rescue filter agrees with the spec's condition
`state='processing' AND lease_until ≤ now - older_than_seconds`. -/
theorem rescueCond_iff (j : Job) (cutoff : Int) :
    rescueCond j cutoff = true ↔
      (j.state = JState.processing ∧
        ∃ l, j.lease_until = some l ∧ l ≤ cutoff) := by
  unfold rescueCond
  rw [Bool.and_eq_true, decide_eq_true_eq]
  constructor
  · rintro ⟨hs, hl⟩
    refine ⟨hs, ?_⟩
    cases hn : j.lease_until with
    | none => rw [hn] at hl; exact Bool.noConfusion hl
    | some l => rw [hn] at hl; exact ⟨l, rfl, of_decide_eq_true hl⟩
  · rintro ⟨hs, l, hl, hle⟩
    refine ⟨hs, ?_⟩
    rw [hl]
    exact decide_eq_true hle

/-- C8: `rescue_leases` updates exactly the rows with `state='processing'`
and a lease at or before `now - older_than_seconds`: each such row is reset
to pending with worker and lease cleared and `updated_at = now` while its
`attempts` is untouched (visible in the frame of the record update); every
other row is unchanged; and the returned ids are the ids of exactly the
rows passing the filter. -/
theorem C8_rescue (jobs : List Job) (olderThanSeconds now : Int) :
    List.Forall₂ (fun j jr =>
        ((j.state = JState.processing ∧
            ∃ l, j.lease_until = some l ∧ l ≤ now - olderThanSeconds) →
          jr = { j with state := JState.pending, worker_id := none,
                        lease_until := none, updated_at := now }) ∧
        (¬(j.state = JState.processing ∧
            ∃ l, j.lease_until = some l ∧ l ≤ now - olderThanSeconds) →
          jr = j) ∧
        jr.attempts = j.attempts)
      jobs (rescue_leases jobs olderThanSeconds now).2 ∧
    (rescue_leases jobs olderThanSeconds now).1 =
      (jobs.filter (fun j => rescueCond j (now - olderThanSeconds))).map
        (fun j => j.id) ∧
    ∀ j : Job, rescueCond j (now - olderThanSeconds) = true ↔
      (j.state = JState.processing ∧
        ∃ l, j.lease_until = some l ∧ l ≤ now - olderThanSeconds) := by
  refine ⟨?_, rfl, fun j => rescueCond_iff j (now - olderThanSeconds)⟩
  have h2 : (rescue_leases jobs olderThanSeconds now).2 =
      jobs.map (fun j =>
        if rescueCond j (now - olderThanSeconds) then rescueReset j now
        else j) := rfl
  rw [h2, List.forall₂_map_right_iff, List.forall₂_same]
  intro j hj
  refine ⟨?_, ?_, ?_⟩
  · intro hp
    rw [if_pos ((rescueCond_iff j _).mpr hp)]
    rfl
  · intro hp
    rw [if_neg (fun hb => hp ((rescueCond_iff j _).mp hb))]
  · by_cases hb : rescueCond j (now - olderThanSeconds) = true
    · rw [if_pos hb]
      rfl
    · rw [if_neg hb]

/-! Invariants over reachable row states. -/

/-- A ready row is `pending` or `failed`. -/
theorem jobReady_state {j : Job} {now : Int} (h : jobReady j now = true) :
    j.state = JState.pending ∨ j.state = JState.failed := by
  unfold jobReady stateReady at h
  rw [Bool.and_eq_true, Bool.and_eq_true] at h
  obtain ⟨⟨hsr, _⟩, _⟩ := h
  rw [Bool.or_eq_true] at hsr
  rcases hsr with hs | hs
  · exact Or.inl (of_decide_eq_true hs)
  · rw [Bool.and_eq_true] at hs
    exact Or.inr (of_decide_eq_true hs.1)

/-- A row passing the rescue filter is `processing`. -/
theorem rescueCond_state {j : Job} {cutoff : Int}
    (h : rescueCond j cutoff = true) : j.state = JState.processing := by
  unfold rescueCond at h
  rw [Bool.and_eq_true] at h
  exact of_decide_eq_true h.1

/-- Neither branch of the failure settlement writes the `output` column. -/
theorem handle_failure_output (j : Job) (ec : Int) (err : Option String)
    (now dur base : Int) :
    (handle_failure j ec err now dur base).output = j.output := by
  unfold handle_failure
  split <;> rfl

/-- A failure settlement ends in `dead` or `failed`. -/
theorem handle_failure_state (j : Job) (ec : Int) (err : Option String)
    (now dur base : Int) :
    (handle_failure j ec err now dur base).state = JState.dead ∨
    (handle_failure j ec err now dur base).state = JState.failed := by
  unfold handle_failure
  split
  · exact Or.inl rfl
  · exact Or.inr rfl

/-- Attempt-accounting invariant: `max_retries` is positive, `attempts`
never exceeds it, and only a `dead` row can have exhausted it. -/
def AttemptInv (j : Job) : Prop :=
  1 ≤ j.max_retries ∧ j.attempts ≤ j.max_retries ∧
  (j.state ≠ JState.dead → j.attempts < j.max_retries)

/-- A failure settlement of a row with spare attempts preserves the
attempt-accounting invariant. -/
theorem attemptInv_handle_failure {j : Job} (h1 : 1 ≤ j.max_retries)
    (hlt : j.attempts < j.max_retries) (ec : Int) (err : Option String)
    (now dur base : Int) : AttemptInv (handle_failure j ec err now dur base) := by
  unfold handle_failure
  split
  · exact ⟨h1, show j.attempts + 1 ≤ j.max_retries by omega,
      fun hc => absurd rfl hc⟩
  · rename_i hge
    exact ⟨h1, show j.attempts + 1 ≤ j.max_retries by omega,
      fun _ => show j.attempts + 1 < j.max_retries by omega⟩

/-- Every engine transition preserves the attempt-accounting invariant. -/
theorem attemptInv_step {a b : Job} (hs : Step a b) (ha : AttemptInv a) :
    AttemptInv b := by
  obtain ⟨h1, h2, h3⟩ := ha
  cases hs with
  | claim w ls now hr =>
      have hlt : a.attempts < a.max_retries := by
        apply h3
        rcases jobReady_state hr with h | h <;> rw [h] <;> decide
      exact ⟨h1, h2, fun _ => hlt⟩
  | settle res now dur base hst =>
      have hlt : a.attempts < a.max_retries :=
        h3 (by rw [hst]; decide)
      cases res with
      | exited rc out err =>
          show AttemptInv (if rc = 0 then completeUpdate a rc (out ++ err) now dur
            else handle_failure a rc (some err) now dur base)
          split
          · exact ⟨h1, le_of_lt hlt, fun _ => hlt⟩
          · exact attemptInv_handle_failure h1 hlt rc (some err) now dur base
      | timedOut =>
          exact attemptInv_handle_failure h1 hlt (-1) (some "timeout") now dur base
  | rescue cutoff now hr =>
      have hlt : a.attempts < a.max_retries :=
        h3 (by rw [rescueCond_state hr]; decide)
      exact ⟨h1, h2, fun _ => hlt⟩
  | dlq now =>
      unfold dlq_retry
      split
      · exact ⟨h1, Nat.zero_le _, fun _ => h1⟩
      · exact ⟨h1, h2, h3⟩

/-- The attempt-accounting invariant holds in every reachable state. -/
theorem attemptInv_reachable {a b : Job} (h : Reachable a b)
    (ha : AttemptInv a) : AttemptInv b := by
  induction h with
  | refl => exact ha
  | tail _ hstep ih => exact attemptInv_step hstep ih

/-- Output frame invariant: only the success settlement writes `output`,
so any row not in state `completed` still carries no output. -/
def OutputInv (j : Job) : Prop :=
  j.state ≠ JState.completed → j.output = none

/-- Every engine transition preserves the output frame invariant. -/
theorem outputInv_step {a b : Job} (hs : Step a b) (ha : OutputInv a) :
    OutputInv b := by
  cases hs with
  | claim w ls now hr =>
      intro _
      apply ha
      rcases jobReady_state hr with h | h <;> rw [h] <;> decide
  | settle res now dur base hst =>
      have hout : a.output = none := ha (by rw [hst]; decide)
      cases res with
      | exited rc out err =>
          show OutputInv (if rc = 0 then completeUpdate a rc (out ++ err) now dur
            else handle_failure a rc (some err) now dur base)
          split
          · exact fun hc => absurd rfl hc
          · intro _
            rw [handle_failure_output]
            exact hout
      | timedOut =>
          intro _
          rw [show (process_job a ExecResult.timedOut now dur base).output =
            (handle_failure a (-1) (some "timeout") now dur base).output from rfl]
          rw [handle_failure_output]
          exact hout
  | rescue cutoff now hr =>
      intro _
      exact ha (by rw [rescueCond_state hr]; decide)
  | dlq now =>
      unfold dlq_retry
      split
      · rename_i hd
        intro _
        exact ha (by rw [hd]; decide)
      · exact ha

/-- The output frame invariant holds in every reachable state. -/
theorem outputInv_reachable {a b : Job} (h : Reachable a b)
    (ha : OutputInv a) : OutputInv b := by
  induction h with
  | refl => exact ha
  | tail _ hstep ih => exact outputInv_step hstep ih

/-- C7: in every committed state reachable from a freshly created row with
`attempts = 0` and positive `max_retries`, `attempts ≤ max_retries`;
`attempts = max_retries` forces a terminal state (`completed` or `dead`);
and a `completed` row has `attempts < max_retries`. -/
theorem C7_attempt_accounting (id command : String) (m : Nat)
    (timeout : Option Nat) (priority : Int) (run_at : Option Int) (t0 : Int)
    (hm : 1 ≤ m) (j : Job)
    (h : Reachable (enqueue id command m timeout priority run_at t0) j) :
    j.attempts ≤ j.max_retries ∧
    (j.attempts = j.max_retries →
      j.state = JState.completed ∨ j.state = JState.dead) ∧
    (j.state = JState.completed → j.attempts < j.max_retries) := by
  have hinv : AttemptInv j :=
    attemptInv_reachable h ⟨hm, Nat.zero_le m, fun _ => hm⟩
  obtain ⟨h1, h2, h3⟩ := hinv
  refine ⟨h2, ?_, ?_⟩
  · intro he
    by_cases hd : j.state = JState.dead
    · exact Or.inr hd
    · exact absurd (h3 hd) (by omega)
  · intro hc
    exact h3 (by rw [hc]; decide)

/-! A concrete two-step trace: claim a fresh `max_retries = 1` row, then
settle a failed attempt, landing in `dead`. -/

/-- The claimed row of the demonstration trace. -/
def trJob1 : Job := claimUpdate sampleJobA "w1" 30 0

/-- The dead row after the failed settlement of the demonstration trace. -/
def trJob2 : Job := process_job trJob1 (ExecResult.exited 1 "" "boom") 1 1 2

/-- The demonstration trace is reachable from the fresh row. -/
theorem trReach : Reachable sampleJobA trJob2 :=
  Relation.ReflTransGen.tail
    (Relation.ReflTransGen.tail Relation.ReflTransGen.refl
      (Step.claim sampleJobA "w1" 30 0 (by decide)))
    (Step.settle trJob1 (ExecResult.exited 1 "" "boom") 1 1 2 rfl)

/-- Witness for C7, evaluated at the dead end of the demonstration trace. -/
theorem C7_attempt_accounting_witness :
    trJob2.attempts ≤ trJob2.max_retries ∧
    (trJob2.attempts = trJob2.max_retries →
      trJob2.state = JState.completed ∨ trJob2.state = JState.dead) ∧
    (trJob2.state = JState.completed → trJob2.attempts < trJob2.max_retries) :=
  C7_attempt_accounting "a" "false" 1 none 0 none 0 (by decide) trJob2 trReach

/-- C10: neither branch of the failure settlement writes the `output`
column, and a row that reaches `dead` from creation without ever completing
carries `output = null`. -/
theorem C10_output_frame :
    (∀ (j : Job) (ec : Int) (err : Option String) (now dur base : Int),
      (handle_failure j ec err now dur base).output = j.output) ∧
    (∀ (id command : String) (m : Nat) (timeout : Option Nat)
        (priority : Int) (run_at : Option Int) (t0 : Int) (j : Job),
      Reachable (enqueue id command m timeout priority run_at t0) j →
        j.state = JState.dead → j.output = none) := by
  constructor
  · exact handle_failure_output
  · intro id command m timeout priority run_at t0 j h hd
    have hinv : OutputInv j := outputInv_reachable h (fun _ => rfl)
    exact hinv (by rw [hd]; decide)

/-- Witness for C10: the failure frame at a concrete row, and the absent
output of the dead end of the demonstration trace. -/
theorem C10_output_frame_witness :
    (handle_failure sampleJobB 1 (some "e") 10 1 2).output = sampleJobB.output ∧
    trJob2.output = none :=
  ⟨C10_output_frame.1 sampleJobB 1 (some "e") 10 1 2,
   C10_output_frame.2 "a" "false" 1 none 0 none 0 trJob2 trReach (by decide)⟩

/-- Witness for C8 over a one-row table holding an expired-lease processing
row, with a 5 second grace period at `now = 10`. -/
theorem C8_rescue_witness :
    List.Forall₂ (fun j jr =>
        ((j.state = JState.processing ∧
            ∃ l, j.lease_until = some l ∧ l ≤ (10 : Int) - 5) →
          jr = { j with state := JState.pending, worker_id := none,
                        lease_until := none, updated_at := (10 : Int) }) ∧
        (¬(j.state = JState.processing ∧
            ∃ l, j.lease_until = some l ∧ l ≤ (10 : Int) - 5) →
          jr = j) ∧
        jr.attempts = j.attempts)
      [expiredProcessing] (rescue_leases [expiredProcessing] 5 10).2 ∧
    (rescue_leases [expiredProcessing] 5 10).1 =
      ([expiredProcessing].filter
        (fun j => rescueCond j ((10 : Int) - 5))).map (fun j => j.id) ∧
    ∀ j : Job, rescueCond j ((10 : Int) - 5) = true ↔
      (j.state = JState.processing ∧
        ∃ l, j.lease_until = some l ∧ l ≤ (10 : Int) - 5) :=
  C8_rescue [expiredProcessing] 5 10
